import Mathlib

/-!
Shallow embedding of the drone / ground-control video streaming system
(CompanionComputer and CLIGroundControl, C sources) and proofs about it.

The embedding follows the C sources:
* `com_utils.c` / `com_utils.h` (companion computer): module message queue
  (`initModuleMessageQueue`, `insertModuleMessage`, `removeModuleMessage`,
  the drain loop of `deinitModuleMessageQueue`), the drone's
  `connectToGroundControl`, and the network-to-stream decoder
  (`inputMessageHandler`, `networkToStreamMessage`).
* `stream_utils.c` (companion computer): the stream control state machine
  (`initStreamController` and the event handlers).
* `com_utils.c` (ground control): `authDrone` and the decision made by its
  caller `threadFuncDroneService`.
* `stream_utils.c` (ground control): the wire words sent by `requestStream`.

Machine integers are modelled as `Nat` (all wire fields are `uint32_t`);
masking is written with `&&&` exactly as the C writes `& (size - 1)`.
Socket and pthread outcomes (trylock success, send/recv results) are
explicit parameters.
-/

namespace DroneStreamer

/-! ## Data model (com_utils.h) -/

/-- Enumeration `ModuleName_T`: logical target module of a message. -/
inductive ModuleName where
  | network
  | stream
  | gccommon
deriving DecidableEq, Repr

/-- Wire value of a `ModuleName_T` (`MOD_NAME_NETWORK = 1`, `MOD_NAME_STREAM = 2`,
`MOD_NAME_GCCOMMON = 3`). -/
def ModuleName.toWire : ModuleName → Nat
  | .network => 1
  | .stream => 2
  | .gccommon => 3

/-- Enumeration `ModuleMessageCode_T`: protocol verb of a message. -/
inductive ModuleMessageCode where
  | login
  | loginAck
  | streamReq
  | streamError
  | streamStart
  | streamStop
  | streamType
  | loginNack
deriving DecidableEq, Repr

/-- Wire value of a `ModuleMessageCode_T` (`MOD_MSG_CODE_LOGIN = 1` ...
`MOD_MSG_CODE_LOGIN_NACK = 8`). -/
def ModuleMessageCode.toWire : ModuleMessageCode → Nat
  | .login => 1
  | .loginAck => 2
  | .streamReq => 3
  | .streamError => 4
  | .streamStart => 5
  | .streamStop => 6
  | .streamType => 7
  | .loginNack => 8

/-- Structure `ModuleMessage_T`.  The `data` field is the single 32-bit
payload word of the C union `ModuleMessageData_T` (video coding format or
video stream port, depending on `code`). -/
structure ModuleMessage where
  address : ModuleName
  code : ModuleMessageCode
  data : Nat
deriving DecidableEq, Repr

/-- Macro `DRONE_ID` (com_utils.h line 23). -/
def DRONE_ID : Nat := 12

/-- Macro `SOCK_FD_INVAL`. -/
def SOCK_FD_INVAL : Int := -1

/-! ## Module message queue (com_utils.c lines 239-408)

`ModuleMessageQueue_T` is a circular buffer of message slots; a slot is
occupied iff its stored pointer is non-null, modelled as `Option`. -/

/-- Structure `ModuleMessageQueue_T` (without the pthread mutex and condition
variable, whose outcomes appear as explicit parameters of the operations). -/
structure ModuleMessageQueue where
  size : Nat
  front : Nat
  back : Nat
  messages : List (Option ModuleMessage)
deriving DecidableEq, Repr

/-- Embeds `initModuleMessageQueue` (com_utils.c lines 239-288): succeeds iff
`size` is non-zero and `size & (size-1) == 0`, allocating a zeroed (all-null)
buffer with `front = back = 0`.  Allocation and pthread initialisation are
assumed to succeed (their failures are the `ResourceExhausted` case); `none`
is the `InvalidArgument` failure. -/
def initModuleMessageQueue (size : Nat) : Option ModuleMessageQueue :=
  if size ≠ 0 ∧ size &&& (size - 1) = 0 then
    some ⟨size, 0, 0, List.replicate size none⟩
  else
    none

/-- Embeds `insertModuleMessage` (com_utils.c lines 325-365) in its
non-blocking mode (`noblock = MOD_MSGQ_NOBLOCK`); `lockFree` is the outcome
of `pthread_mutex_trylock` (the `-2` return).  The blocking mode performs the
identical insertion at lines 353-354 once its condition-variable wait ends.
Returns the C `retval` and the queue state after the call. -/
def insertModuleMessage (q : ModuleMessageQueue) (message : ModuleMessage)
    (lockFree : Bool) : Int × ModuleMessageQueue :=
  if ¬lockFree then
    (-2, q)
  else if (q.messages.getD q.front none).isSome then
    (-3, q)
  else
    (0, { q with
            messages := q.messages.set q.front (some message),
            front := (q.front + 1) &&& (q.size - 1) })

/-- Embeds `removeModuleMessage` (com_utils.c lines 367-408) in its
non-blocking mode; `lockFree` is the outcome of `pthread_mutex_trylock`.
Returns the C `retval`, the message handed to the caller (the `*message`
out-parameter, `none` when it is left unset), and the queue state after the
call. -/
def removeModuleMessage (q : ModuleMessageQueue) (lockFree : Bool) :
    Int × Option ModuleMessage × ModuleMessageQueue :=
  if ¬lockFree then
    (-2, none, q)
  else
    match q.messages.getD q.back none with
    | none => (-3, none, q)
    | some m =>
        (0, some m, { q with
                        messages := q.messages.set q.back none,
                        back := (q.back + 1) &&& (q.size - 1) })

/-- Number of occupied slots; termination measure for `drainQueue`. -/
def occupiedCount (slots : List (Option ModuleMessage)) : Nat :=
  slots.countP Option.isSome

theorem occupiedCount_set_none_lt :
    ∀ (slots : List (Option ModuleMessage)) (i : Nat) (m : ModuleMessage),
    slots.getD i none = some m →
    occupiedCount (slots.set i none) < occupiedCount slots := by
  intro slots
  induction slots with
  | nil =>
      intro i m h
      simp [List.getD] at h
  | cons a tl ih =>
      intro i m h
      cases i with
      | zero =>
          simp [List.getD] at h
          subst h
          simp [occupiedCount, List.countP_cons]
      | succ n =>
          have h' : tl.getD n none = some m := by
            simpa [List.getD] using h
          have := ih n m h'
          simp only [List.set_cons_succ, occupiedCount, List.countP_cons]
          exact Nat.add_lt_add_right this _

/-- Embeds the drain loop of `deinitModuleMessageQueue` (com_utils.c lines
296-301): while the slot at `back` is occupied, clear it and advance `back`
with the same mask arithmetic as push/pop. -/
def drainQueue (q : ModuleMessageQueue) : ModuleMessageQueue :=
  match h : q.messages.getD q.back none with
  | none => q
  | some _ =>
      drainQueue { q with
                     messages := q.messages.set q.back none,
                     back := (q.back + 1) &&& (q.size - 1) }
termination_by occupiedCount q.messages
decreasing_by exact occupiedCount_set_none_lt q.messages q.back _ h

/-! ## Stream control state machine (drone stream_utils.c) -/

/-- Enumeration `StreamState_T` (stream_utils.c lines 66-71). -/
inductive StreamState where
  | standby
  | playing
deriving DecidableEq, Repr

/-- Enumeration `StreamEvent_T` (stream_utils.c lines 54-61). -/
inductive StreamEvent where
  | streamReq
  | streamStart
  | streamStop
  | pipeError
deriving DecidableEq, Repr

/-- The five event handler functions of the drone stream controller,
as symbolic values (`EventHandler_T` function pointers in the C). -/
inductive EventHandler where
  | emptyHandler
  | streamRequestHandler
  | streamStartHandler
  | streamStopHandler
  | streamErrorHandler
deriving DecidableEq, Repr

/-- Struct `StateContext_T` (stream_utils.c lines 76-81). -/
structure StateContext where
  nextState : StreamState
  eventHandler : EventHandler
deriving DecidableEq, Repr

/-- Embeds `initStreamController` (stream_utils.c lines 528-538): the
8-entry `(state, event) → (next state, handler)` dispatch table. -/
def streamController : StreamState → StreamEvent → StateContext
  | .standby, .streamReq   => ⟨.standby, .streamRequestHandler⟩
  | .standby, .streamStart => ⟨.playing, .streamStartHandler⟩
  | .standby, .streamStop  => ⟨.standby, .emptyHandler⟩
  | .standby, .pipeError   => ⟨.standby, .streamErrorHandler⟩
  | .playing, .streamReq   => ⟨.playing, .emptyHandler⟩
  | .playing, .streamStart => ⟨.playing, .emptyHandler⟩
  | .playing, .streamStop  => ⟨.standby, .streamStopHandler⟩
  | .playing, .pipeError   => ⟨.standby, .streamErrorHandler⟩

/-- GStreamer pipeline states targeted by `gst_element_set_state` calls in
the handlers (`PIPE_INITIAL_STATE` is `GST_STATE_READY`). -/
inductive GstTargetState where
  | null
  | ready
  | playing
deriving DecidableEq, Repr

/-- The media-engine state change each handler issues: `streamStartHandler`
sets the pipeline to PLAYING (line 635), `streamStopHandler` to the initial
READY state (line 610), `streamErrorHandler` to NULL (line 662);
`emptyHandler` and `streamRequestHandler` call no `gst_element_set_state`. -/
def mediaEngineCall : EventHandler → Option GstTargetState
  | .emptyHandler => none
  | .streamRequestHandler => none
  | .streamStartHandler => some .playing
  | .streamStopHandler => some .ready
  | .streamErrorHandler => some .null

/-- Messages each handler inserts into the network module's outbound queue
(`networkMsgq`), given the consumed message and the drone's
`currentCodingFormat`: `streamRequestHandler` sends a `STREAM_TYPE` reply
(lines 577-585), `streamErrorHandler` forwards the consumed message
readdressed to `MOD_NAME_GCCOMMON` (lines 657-659); the others send
nothing. -/
def handlerOutbound (currentFormat : Nat) (h : EventHandler)
    (m : ModuleMessage) : List ModuleMessage :=
  match h with
  | .streamRequestHandler => [⟨.gccommon, .streamType, currentFormat⟩]
  | .streamErrorHandler => [{ m with address := .gccommon }]
  | _ => []

/-- Embeds the message dispatch of `threadFuncStreamControl` (stream_utils.c
lines 457-488): map the message code to a stream event, or drop the message
with no state transition. -/
def codeToStreamEvent : ModuleMessageCode → Option StreamEvent
  | .streamStart => some .streamStart
  | .streamStop => some .streamStop
  | .streamReq => some .streamReq
  | .streamError => some .pipeError
  | _ => none

/-- One iteration of the stream controller loop (stream_utils.c lines
457-495) on a dequeued message: returns the next state machine state and
the messages pushed onto the outbound network queue. -/
def streamControlStep (currentFormat : Nat) (state : StreamState)
    (m : ModuleMessage) : StreamState × List ModuleMessage :=
  match codeToStreamEvent m.code with
  | none => (state, [])
  | some e =>
      ((streamController state e).nextState,
       handlerOutbound currentFormat (streamController state e).eventHandler m)

/-- The message built by `pipelineErrorCallback` (stream_utils.c lines
992-998): a calloc-zeroed message with `address = MOD_NAME_STREAM` and
`code = MOD_MSG_CODE_STREAM_ERROR`, inserted into `streamMsgq`. -/
def pipelineErrorMessage : ModuleMessage :=
  ⟨.stream, .streamError, 0⟩

/-! ## Protocol codec (requestStream encoder, networkToStreamMessage decoder)

The wire is modelled as the sequence of 32-bit words the peers exchange
(all fields are `uint32_t` sent in host byte order). -/

/-- The wire words sent by the ground control's `requestStream`
(GroundControl stream_utils.c lines 146-176): the two-word header
`{MOD_NAME_STREAM, MOD_MSG_CODE_STREAM_REQ}` followed by the one-word
stream port. -/
def requestStreamWire (port : Nat) : List Nat :=
  [ModuleName.stream.toWire, ModuleMessageCode.streamReq.toWire, port]

/-- Embeds `networkToStreamMessage` (CompanionComputer com_utils.c lines
833-919): given the message code word from the header and the remaining
wire words, build the stream module message.  A `STREAM_REQ` reads one
port word (failing if it cannot be read in full); `STREAM_START` and
`STREAM_STOP` carry no payload (the message is calloc-zeroed, so `data`
is 0); any other code is invalid. -/
def networkToStreamMessage (codeWord : Nat) (rest : List Nat) :
    Option ModuleMessage :=
  if codeWord = ModuleMessageCode.streamReq.toWire then
    match rest with
    | port :: _ => some ⟨.stream, .streamReq, port⟩
    | [] => none
  else if codeWord = ModuleMessageCode.streamStart.toWire then
    some ⟨.stream, .streamStart, 0⟩
  else if codeWord = ModuleMessageCode.streamStop.toWire then
    some ⟨.stream, .streamStop, 0⟩
  else
    none

/-- Embeds the header parsing of the drone's `inputMessageHandler`
(CompanionComputer com_utils.c lines 773-822): read the two-word header,
dispatch on the module word (only `MOD_NAME_STREAM` is known), and hand
the code word to `networkToStreamMessage`.  `none` is a decode failure
(which in the C triggers `cleanupInputMessages`). -/
def inputMessageHandler (wire : List Nat) : Option ModuleMessage :=
  match wire with
  | moduleWord :: codeWord :: rest =>
      if moduleWord = ModuleName.stream.toWire then
        networkToStreamMessage codeWord rest
      else
        none
  | _ => none

/-! ## Ground control authentication (GroundControl com_utils.c) -/

/-- Result of `authDrone`: the C return value, the login reply sent to the
drone (as a `(code, id)` word pair, `none` if no reply was sent), and the
value of the `*droneID` out-parameter after the call. -/
structure AuthResult where
  retval : Int
  reply : Option (Nat × Nat)
  droneID : Nat
deriving DecidableEq, Repr

/-- Embeds `authDrone` (GroundControl com_utils.c lines 495-557) for a valid
socket and out-pointer.  `login` is the `(code, id)` word pair received by
`recvTimeout` within its 2-second timeout (`none` for a short or failed
read); `sendOk` is whether `send` succeeds; `droneID0` is the value behind
the out-pointer before the call.  If the received code is
`MOD_MSG_CODE_LOGIN` the reply is `{LOGIN_ACK, id}` and `*droneID` is set;
otherwise the reply is `{LOGIN_NACK, 0}`.  In both branches `retval` stays
`0` unless `send` fails. -/
def authDrone (login : Option (Nat × Nat)) (sendOk : Bool) (droneID0 : Nat) :
    AuthResult :=
  match login with
  | none => ⟨-1, none, droneID0⟩
  | some (code, id) =>
      if code = ModuleMessageCode.login.toWire then
        ⟨if sendOk then 0 else -1, some (ModuleMessageCode.loginAck.toWire, id), id⟩
      else
        ⟨if sendOk then 0 else -1, some (ModuleMessageCode.loginNack.toWire, 0), droneID0⟩

/-- The decision made by `threadFuncDroneService` (GroundControl com_utils.c
lines 404-419): the per-connection communication loop is entered iff
`authDrone`'s return value is not negative (`if (0 > authDrone(...))`
rejects, `else` enters the loop). -/
def commLoopEntered (authRetval : Int) : Bool :=
  decide (0 ≤ authRetval)

/-! ## Drone connect-and-login (connectToGroundControl) -/

/-- Environment outcomes consumed by `connectToGroundControl`:
`addrResolved` covers `getaddrinfo` succeeding with a non-null result,
`socketFd` is the descriptor returned by `socket` (`none` on failure),
`connectOk` the `connect` call, `sendLoginOk` whether the whole login
message was sent, and `loginReply` the `(code, id)` word pair received in
full by `recvTimeout` within its 2-second timeout (`none` for an error,
timeout or short read). -/
structure ConnectEnv where
  addrResolved : Bool
  socketFd : Option Nat
  connectOk : Bool
  sendLoginOk : Bool
  loginReply : Option (Nat × Nat)
deriving DecidableEq, Repr

/-- Result of `connectToGroundControl`: the C return value, the value stored
in the `*fd` out-parameter, whether `close` was called on a created socket,
and whether the `SO_KEEPALIVE` option was requested on the surviving
socket. -/
structure ConnectResult where
  retval : Int
  fd : Int
  socketClosed : Bool
  keepaliveRequested : Bool
deriving DecidableEq, Repr

/-- The login receive timeout passed to `recvTimeout` in
`connectToGroundControl` (com_utils.c line 709), in seconds. -/
def loginRecvTimeoutSec : Nat := 2

/-- Embeds `connectToGroundControl` (CompanionComputer com_utils.c lines
603-771) for valid arguments.  Failures before the login exchange leave the
descriptor invalid without a `close` (no socket survives them: resolution
and `socket` failures never created one, and the `connect` failure path
frees the address info and invalidates `*fd`).  After the login message is
sent, a failed send, a short/timed-out reply, or a reply other than
`{LOGIN_ACK, DRONE_ID}` closes the socket and sets `*fd = SOCK_FD_INVAL`;
only a matching `{LOGIN_ACK, DRONE_ID}` reply keeps the socket, requests
`SO_KEEPALIVE` on it and returns success. -/
def connectToGroundControl (env : ConnectEnv) : ConnectResult :=
  if ¬env.addrResolved then
    ⟨-1, SOCK_FD_INVAL, false, false⟩
  else
    match env.socketFd with
    | none => ⟨-1, SOCK_FD_INVAL, false, false⟩
    | some fd =>
        if ¬env.connectOk then
          ⟨-1, SOCK_FD_INVAL, false, false⟩
        else if ¬env.sendLoginOk then
          ⟨-1, SOCK_FD_INVAL, true, false⟩
        else
          match env.loginReply with
          | none => ⟨-1, SOCK_FD_INVAL, true, false⟩
          | some (code, id) =>
              if code ≠ ModuleMessageCode.loginAck.toWire ∨ id ≠ DRONE_ID then
                ⟨-1, SOCK_FD_INVAL, true, false⟩
              else
                ⟨0, Int.ofNat fd, false, true⟩

/-! ## Queue test drivers and invariants -/

/-- Push a list of messages with non-blocking pushes, requiring every push
to return `0`. -/
def pushAll (q : ModuleMessageQueue) :
    List ModuleMessage → Option ModuleMessageQueue
  | [] => some q
  | m :: ms =>
      let r := insertModuleMessage q m true
      if r.1 = 0 then pushAll r.2 ms else none

/-- Pop `n` messages with non-blocking pops, requiring every pop to return
`0` with a message. -/
def popAll (q : ModuleMessageQueue) :
    Nat → Option (List ModuleMessage × ModuleMessageQueue)
  | 0 => some ([], q)
  | n + 1 =>
      let r := removeModuleMessage q true
      if r.1 = 0 then
        match r.2.1 with
        | some m => (popAll r.2.2 n).map (fun p => (m :: p.1, p.2))
        | none => none
      else none

/-- A queue operation issued by a client thread. -/
inductive QueueOp where
  | push (m : ModuleMessage)
  | pop
deriving DecidableEq, Repr

/-- Run a sequence of non-blocking operations against the concrete queue,
observing each operation's return value and popped message. -/
def runQueue (q : ModuleMessageQueue) :
    List QueueOp → List (Int × Option ModuleMessage)
  | [] => []
  | QueueOp.push m :: ops =>
      let r := insertModuleMessage q m true
      (r.1, none) :: runQueue r.2 ops
  | QueueOp.pop :: ops =>
      let r := removeModuleMessage q true
      (r.1, r.2.1) :: runQueue r.2.2 ops

/-- Modelled from the spec: the reference bounded FIFO of §3/§8 — a plain
list of at most `cap` messages, pushed at the end and popped at the head,
with the same observable return values as the concrete queue. -/
def runFifo (cap : Nat) (l : List ModuleMessage) :
    List QueueOp → List (Int × Option ModuleMessage)
  | [] => []
  | QueueOp.push m :: ops =>
      if l.length = cap then (-3, none) :: runFifo cap l ops
      else (0, none) :: runFifo cap (l ++ [m]) ops
  | QueueOp.pop :: ops =>
      match l with
      | [] => (-3, none) :: runFifo cap [] ops
      | m :: l' => (0, some m) :: runFifo cap l' ops

/-- The index invariant of claim C10: both circular-buffer indices stay
below the buffer size. -/
def queueIndicesInBounds (q : ModuleMessageQueue) : Prop :=
  q.front < q.size ∧ q.back < q.size

instance (q : ModuleMessageQueue) : Decidable (queueIndicesInBounds q) :=
  inferInstanceAs (Decidable (_ ∧ _))

/-- Abstraction relation: queue `q` holds exactly the messages of `l` in
FIFO order, starting at slot `back`, with `front` one past the last
occupied slot (modulo the size) and all other slots free. -/
structure QueueRepr (q : ModuleMessageQueue) (l : List ModuleMessage) :
    Prop where
  pow2 : ∃ k, q.size = 2 ^ k
  msgLen : q.messages.length = q.size
  backLt : q.back < q.size
  lenLe : l.length ≤ q.size
  frontEq : q.front = (q.back + l.length) % q.size
  slots : ∀ i, i < q.size →
      q.messages.getD ((q.back + i) % q.size) none = l[i]?

/-! ## Spec-side reference definitions -/

/-- The next-state table exactly as §4.4 of the spec writes it, as a
reference for comparison with the implementation's `streamController`. -/
def specNextState : StreamState → StreamEvent → StreamState
  | .standby, .streamReq => .standby
  | .standby, .streamStart => .playing
  | .standby, .streamStop => .standby
  | .standby, .pipeError => .standby
  | .playing, .streamReq => .playing
  | .playing, .streamStart => .playing
  | .playing, .streamStop => .standby
  | .playing, .pipeError => .standby

/-! ## Supporting lemmas -/

theorem pow_two_and_pred (k : Nat) : 2 ^ k &&& (2 ^ k - 1) = 0 := by
  rw [Nat.and_pow_two_sub_one_eq_mod]
  exact Nat.mod_self _

theorem and_pred_eq_zero_isPow2 :
    ∀ n, n ≠ 0 → n &&& (n - 1) = 0 → ∃ k, n = 2 ^ k := by
  intro n
  induction n using Nat.strong_induction_on with
  | _ n ih =>
      intro hn hand
      rcases Nat.even_or_odd n with he | ho
      · obtain ⟨m, hm⟩ := he
        have hm2 : n = 2 * m := by omega
        have hmpos : m ≠ 0 := by omega
        have hpred : n - 1 = 2 * (m - 1) + 1 := by omega
        have hbit : n &&& (n - 1) = 2 * (m &&& (m - 1)) := by
          rw [hpred, hm2]
          have hb := Nat.land_bit false m true (m - 1)
          simpa [Nat.bit] using hb
        rw [hbit] at hand
        have hm0 : m &&& (m - 1) = 0 := by omega
        obtain ⟨k, hk⟩ := ih m (by omega) hmpos hm0
        exact ⟨k + 1, by rw [hm2, hk, pow_succ]; ring⟩
      · obtain ⟨m, hm⟩ := ho
        rcases Nat.eq_zero_or_pos m with hm0 | hmpos
        · exact ⟨0, by omega⟩
        · exfalso
          have hpred : n - 1 = 2 * m := by omega
          have hbit : n &&& (n - 1) = 2 * m := by
            rw [hpred, hm]
            have hb := Nat.land_bit true m false m
            simpa [Nat.bit] using hb
          omega

theorem QueueRepr.sizePos {q : ModuleMessageQueue} {l : List ModuleMessage}
    (h : QueueRepr q l) : 0 < q.size := by
  obtain ⟨k, hk⟩ := h.pow2
  rw [hk]
  exact Nat.two_pow_pos k

theorem QueueRepr.mask_mod {q : ModuleMessageQueue} {l : List ModuleMessage}
    (h : QueueRepr q l) (x : Nat) : x &&& (q.size - 1) = x % q.size := by
  obtain ⟨k, hk⟩ := h.pow2
  rw [hk]
  exact Nat.and_pow_two_sub_one_eq_mod x k

theorem QueueRepr.frontLt {q : ModuleMessageQueue} {l : List ModuleMessage}
    (h : QueueRepr q l) : q.front < q.size := by
  rw [h.frontEq]
  exact Nat.mod_lt _ h.sizePos

theorem addIdx_inj {s b i j : Nat} (hi : i < s) (hj : j < s)
    (h : (b + i) % s = (b + j) % s) : i = j := by
  have h' : i ≡ j [MOD s] := Nat.ModEq.add_left_cancel' b h
  calc i = i % s := (Nat.mod_eq_of_lt hi).symm
    _ = j % s := h'
    _ = j := Nat.mod_eq_of_lt hj

theorem insert_snd_size (q : ModuleMessageQueue) (m : ModuleMessage)
    (b : Bool) : (insertModuleMessage q m b).2.size = q.size := by
  unfold insertModuleMessage
  split
  · rfl
  · split <;> rfl

theorem remove_snd_size (q : ModuleMessageQueue) (b : Bool) :
    (removeModuleMessage q b).2.2.size = q.size := by
  unfold removeModuleMessage
  split
  · rfl
  · split <;> rfl

theorem insertModuleMessage_ok {q : ModuleMessageQueue}
    {l : List ModuleMessage} (h : QueueRepr q l) (hlt : l.length < q.size)
    (m : ModuleMessage) :
    (insertModuleMessage q m true).1 = 0 ∧
    QueueRepr (insertModuleMessage q m true).2 (l ++ [m]) := by
  have hsz := h.sizePos
  have hfl := h.frontLt
  have hfree : q.messages[q.front]?.getD none = none := by
    have hs := h.slots l.length hlt
    rw [List.getD_eq_getElem?_getD] at hs
    rw [h.frontEq, hs]
    exact List.getElem?_eq_none (Nat.le_refl _)
  have hstep : insertModuleMessage q m true =
      (0, { q with messages := q.messages.set q.front (some m),
                   front := (q.front + 1) &&& (q.size - 1) }) := by
    simp [insertModuleMessage, hfree]
  rw [hstep]
  refine ⟨rfl, ⟨h.pow2, ?_, h.backLt, ?_, ?_, ?_⟩⟩
  · simpa using h.msgLen
  · simp only [List.length_append, List.length_singleton]
    omega
  · show (q.front + 1) &&& (q.size - 1) = (q.back + (l ++ [m]).length) % q.size
    rw [h.mask_mod, h.frontEq, Nat.mod_add_mod, List.length_append,
        List.length_singleton, Nat.add_assoc]
  · intro i hi
    show (q.messages.set q.front (some m)).getD ((q.back + i) % q.size) none
        = (l ++ [m])[i]?
    rw [List.getD_eq_getElem?_getD]
    by_cases hil : i = l.length
    · subst hil
      rw [← h.frontEq, List.getElem?_set_self (by rw [h.msgLen]; exact hfl)]
      show some m = (l ++ [m])[l.length]?
      rw [List.getElem?_append_right (Nat.le_refl _)]
      simp
    · have hne : q.front ≠ (q.back + i) % q.size := by
        intro heq
        rw [h.frontEq] at heq
        exact hil (addIdx_inj hi hlt heq.symm)
      rw [List.getElem?_set_ne hne, ← List.getD_eq_getElem?_getD,
          h.slots i hi]
      by_cases hlt2 : i < l.length
      · exact (List.getElem?_append_left hlt2).symm
      · rw [List.getElem?_eq_none (by omega),
            List.getElem?_eq_none (by simp; omega)]

theorem insertModuleMessage_full {q : ModuleMessageQueue}
    {l : List ModuleMessage} (h : QueueRepr q l) (hfull : l.length = q.size)
    (m : ModuleMessage) : insertModuleMessage q m true = (-3, q) := by
  have hsz := h.sizePos
  obtain ⟨a, t, rfl⟩ : ∃ a t, l = a :: t := by
    cases l with
    | nil => simp at hfull; omega
    | cons a t => exact ⟨a, t, rfl⟩
  have hocc : q.messages[q.front]?.getD none = some a := by
    have hs := h.slots 0 hsz
    rw [List.getD_eq_getElem?_getD] at hs
    have hb : (q.back + 0) % q.size = q.back := by
      rw [Nat.add_zero, Nat.mod_eq_of_lt h.backLt]
    rw [hb] at hs
    have hf : q.front = q.back := by
      rw [h.frontEq, hfull, Nat.add_mod_right, Nat.mod_eq_of_lt h.backLt]
    rw [hf, hs]
    simp
  simp [insertModuleMessage, hocc]

theorem removeModuleMessage_ok {q : ModuleMessageQueue}
    {m : ModuleMessage} {l : List ModuleMessage} (h : QueueRepr q (m :: l)) :
    removeModuleMessage q true =
      (0, some m, { q with messages := q.messages.set q.back none,
                           back := (q.back + 1) &&& (q.size - 1) }) ∧
    QueueRepr { q with messages := q.messages.set q.back none,
                       back := (q.back + 1) &&& (q.size - 1) } l := by
  have hsz := h.sizePos
  have hbl := h.backLt
  have hlen : l.length + 1 ≤ q.size := by
    have := h.lenLe
    simpa using this
  have hslot : q.messages[q.back]?.getD none = some m := by
    have hs := h.slots 0 hsz
    rw [List.getD_eq_getElem?_getD] at hs
    have hb : (q.back + 0) % q.size = q.back := by
      rw [Nat.add_zero, Nat.mod_eq_of_lt hbl]
    rw [hb] at hs
    rw [hs]
    simp
  have hstep : removeModuleMessage q true =
      (0, some m, { q with messages := q.messages.set q.back none,
                           back := (q.back + 1) &&& (q.size - 1) }) := by
    simp [removeModuleMessage, hslot]
  refine ⟨hstep, ⟨h.pow2, ?_, ?_, ?_, ?_, ?_⟩⟩
  · simpa using h.msgLen
  · show (q.back + 1) &&& (q.size - 1) < q.size
    rw [h.mask_mod]
    exact Nat.mod_lt _ hsz
  · show l.length ≤ q.size
    omega
  · show q.front = (((q.back + 1) &&& (q.size - 1)) + l.length) % q.size
    rw [h.mask_mod, Nat.mod_add_mod, h.frontEq, List.length_cons]
    congr 1
    omega
  · intro i hi
    have hi0 : i < q.size := hi
    show (q.messages.set q.back none).getD
        ((((q.back + 1) &&& (q.size - 1)) + i) % q.size) none = l[i]?
    rw [List.getD_eq_getElem?_getD, h.mask_mod, Nat.mod_add_mod]
    have harith : q.back + 1 + i = q.back + (i + 1) := by omega
    rw [harith]
    by_cases hi1 : i + 1 < q.size
    · have hne : q.back ≠ (q.back + (i + 1)) % q.size := by
        intro heq
        have hb0 : (q.back + 0) % q.size = (q.back + (i + 1)) % q.size := by
          rw [Nat.add_zero, Nat.mod_eq_of_lt hbl]
          exact heq
        have := addIdx_inj hsz hi1 hb0
        omega
      rw [List.getElem?_set_ne hne, ← List.getD_eq_getElem?_getD,
          h.slots (i + 1) hi1]
      simp
    · have hieq : i + 1 = q.size := by omega
      have hb : (q.back + (i + 1)) % q.size = q.back := by
        rw [hieq, Nat.add_mod_right, Nat.mod_eq_of_lt hbl]
      rw [hb, List.getElem?_set_self (by rw [h.msgLen]; exact hbl)]
      show (none : Option ModuleMessage) = l[i]?
      rw [List.getElem?_eq_none (by omega)]

theorem removeModuleMessage_empty {q : ModuleMessageQueue}
    (h : QueueRepr q []) : removeModuleMessage q true = (-3, none, q) := by
  have hsz := h.sizePos
  have hslot : q.messages[q.back]?.getD none = none := by
    have hs := h.slots 0 hsz
    rw [List.getD_eq_getElem?_getD] at hs
    have hb : (q.back + 0) % q.size = q.back := by
      rw [Nat.add_zero, Nat.mod_eq_of_lt h.backLt]
    rw [hb] at hs
    simpa using hs
  simp [removeModuleMessage, hslot]

theorem initModuleMessageQueue_repr {size : Nat} {q : ModuleMessageQueue}
    (h : initModuleMessageQueue size = some q) :
    q.size = size ∧ QueueRepr q [] := by
  unfold initModuleMessageQueue at h
  split at h
  · rename_i hcond
    obtain ⟨hne, hand⟩ := hcond
    obtain ⟨k, hk⟩ := and_pred_eq_zero_isPow2 size hne hand
    injection h with h
    subst h
    refine ⟨rfl, ⟨⟨k, hk⟩, by simp, Nat.pos_of_ne_zero hne, by simp, ?_, ?_⟩⟩
    · show (0 : Nat) = (0 + 0) % size
      rw [Nat.add_zero, Nat.zero_mod]
    · intro i hi
      show (List.replicate size none).getD ((0 + i) % size) none
          = ([] : List ModuleMessage)[i]?
      rw [List.getD_eq_getElem?_getD, List.getElem?_replicate]
      split <;> rfl
  · exact Option.noConfusion h

theorem pushAll_repr :
    ∀ (ms : List ModuleMessage) (q : ModuleMessageQueue)
      (l : List ModuleMessage), QueueRepr q l →
      l.length + ms.length ≤ q.size →
      ∃ q', pushAll q ms = some q' ∧ QueueRepr q' (l ++ ms) ∧
        q'.size = q.size := by
  intro ms
  induction ms with
  | nil =>
      intro q l h hle
      exact ⟨q, rfl, by simpa using h, rfl⟩
  | cons m ms ih =>
      intro q l h hle
      have hlt : l.length < q.size := by
        simp only [List.length_cons] at hle
        omega
      obtain ⟨h0, hrep⟩ := insertModuleMessage_ok h hlt m
      have hsz := insert_snd_size q m true
      obtain ⟨q', hq', hrep', hsz'⟩ :=
        ih (insertModuleMessage q m true).2 (l ++ [m]) hrep
          (by simp only [hsz, List.length_append, List.length_singleton]
              simp only [List.length_cons] at hle
              omega)
      refine ⟨q', ?_, ?_, by rw [hsz', hsz]⟩
      · simp only [pushAll, h0, if_pos]
        exact hq'
      · simpa using hrep'

theorem popAll_repr :
    ∀ (l : List ModuleMessage) (q : ModuleMessageQueue), QueueRepr q l →
      ∃ q', popAll q l.length = some (l, q') ∧ QueueRepr q' [] ∧
        q'.size = q.size := by
  intro l
  induction l with
  | nil =>
      intro q h
      exact ⟨q, rfl, h, rfl⟩
  | cons m t ih =>
      intro q h
      obtain ⟨hstep, hrep⟩ := removeModuleMessage_ok h
      obtain ⟨q', hq', hrep', hsz'⟩ := ih _ hrep
      refine ⟨q', ?_, hrep', by rw [hsz']⟩
      show popAll q (t.length + 1) = some (m :: t, q')
      simp only [popAll, hstep, hq']
      rfl

theorem drainQueue_bounds :
    ∀ (N : Nat) (q : ModuleMessageQueue), occupiedCount q.messages = N →
      0 < q.size → queueIndicesInBounds q →
      queueIndicesInBounds (drainQueue q) := by
  intro N
  induction N using Nat.strong_induction_on with
  | _ N ih =>
      intro q hN hpos hwf
      rw [drainQueue.eq_def]
      split
      · exact hwf
      · rename_i m hslot
        refine ih _ (hN ▸ occupiedCount_set_none_lt q.messages q.back m hslot)
          _ rfl hpos ⟨hwf.1, ?_⟩
        show (q.back + 1) &&& (q.size - 1) < q.size
        exact Nat.lt_of_le_of_lt Nat.and_le_right (Nat.sub_lt hpos (by decide))

/-! ## Claim theorems -/

/-- C1: on a login message whose code is not LOGIN, `authDrone` does send
the `{LOGIN_NACK, 0}` reply, but its return value stays `0`, so
`threadFuncDroneService` treats authentication as succeeded and enters the
per-connection communication loop — contradicting the claim (and the
function's own `0 Success / -1 Failure` contract).  Evaluated at the
failing input: received login message `{code = STREAM_REQ = 3, id = 77}`
with a successful `send`. -/
theorem authDrone_badCode_sendsNack_entersLoop :
    authDrone (some (ModuleMessageCode.streamReq.toWire, 77)) true 0 =
      ⟨0, some (ModuleMessageCode.loginNack.toWire, 0), 0⟩ ∧
    commLoopEntered
      (authDrone (some (ModuleMessageCode.streamReq.toWire, 77)) true 0).retval
      = true := by
  decide

/-- C2: the drone's stream controller realises exactly the spec's 8-entry
transition table over `{standby, playing} × {stream-requested, stream-start,
stream-stop, pipeline-error}`, and in `standby` a `stream-stop` event is
dispatched to the no-op `emptyHandler`, which issues no media-engine state
change. -/
theorem streamController_matchesSpecTable :
    (∀ s e, (streamController s e).nextState = specNextState s e) ∧
    (streamController .standby .streamStop).eventHandler = .emptyHandler ∧
    mediaEngineCall (streamController .standby .streamStop).eventHandler
      = none := by
  refine ⟨?_, rfl, rfl⟩
  intro s e
  cases s <;> cases e <;> rfl

/-- C3: in `playing`, delivering a pipeline-error message (any message whose
code is `STREAM_ERROR`) makes the stream controller push exactly one
message onto the outbound network queue — the consumed message readdressed
to the ground control common module, still carrying code `STREAM_ERROR` —
and transition to `standby`. -/
theorem playingPipeErrorEmitsOneStreamError (fmt : Nat) (m : ModuleMessage)
    (h : m.code = .streamError) :
    streamControlStep fmt .playing m =
      (.standby, [⟨.gccommon, .streamError, m.data⟩]) ∧
    ((streamControlStep fmt .playing m).2.countP
        (fun x => x.address == .gccommon && x.code == .streamError)) = 1 := by
  cases m with
  | mk addr code d =>
      cases h
      exact ⟨rfl, rfl⟩

/-- Witness for C3: the exact message built by `pipelineErrorCallback`,
delivered in `playing`, yields state `standby` and the singleton outbound
`{address = GCCOMMON, code = STREAM_ERROR}`. -/
theorem playingPipeErrorEmitsOneStreamError_witness :
    streamControlStep 0 .playing pipelineErrorMessage =
      (.standby, [⟨.gccommon, .streamError, 0⟩]) :=
  (playingPipeErrorEmitsOneStreamError 0 pipelineErrorMessage rfl).1

/-- C7: round-trip of the stream-request codec: encoding a message with
`address = STREAM`, `code = STREAM_REQ` and a (32-bit) port payload as the
wire words sent by `requestStream` and decoding them through
`inputMessageHandler` yields an equal message, and re-encoding the decoded
message reproduces the wire bytes (encode ∘ decode ∘ encode = encode). -/
theorem requestStreamRoundTrip (m : ModuleMessage)
    (haddr : m.address = .stream) (hcode : m.code = .streamReq)
    (hport : m.data < 2 ^ 32) :
    inputMessageHandler (requestStreamWire m.data) = some m ∧
    (inputMessageHandler (requestStreamWire m.data)).map
        (fun m' => requestStreamWire m'.data)
      = some (requestStreamWire m.data) := by
  cases m with
  | mk addr code d =>
      cases haddr
      cases hcode
      exact ⟨rfl, rfl⟩

/-- Witness for C7 at the spec's example `port = 5000`. -/
theorem requestStreamRoundTrip_witness :
    inputMessageHandler (requestStreamWire 5000) =
      some ⟨.stream, .streamReq, 5000⟩ :=
  (requestStreamRoundTrip ⟨.stream, .streamReq, 5000⟩ rfl rfl (by decide)).1

/-- C8: in the drone's connect-and-login attempt, once the login message has
been sent, a reply other than `{LOGIN_ACK, DRONE_ID}` — or no full reply
within the `recvTimeout` window — fails the attempt with the socket closed
and the stored descriptor invalidated; success (`retval = 0`) happens only
with a matching `{LOGIN_ACK, DRONE_ID}` reply, and then keepalive is
requested and the socket survives.  The login receive timeout is 2
seconds. -/
theorem connectLoginValidation :
    (∀ (env : ConnectEnv) (fd code id : Nat),
        env.addrResolved = true → env.socketFd = some fd →
        env.connectOk = true → env.sendLoginOk = true →
        env.loginReply = some (code, id) →
        code ≠ ModuleMessageCode.loginAck.toWire ∨ id ≠ DRONE_ID →
        connectToGroundControl env = ⟨-1, SOCK_FD_INVAL, true, false⟩) ∧
    (∀ (env : ConnectEnv) (fd : Nat),
        env.addrResolved = true → env.socketFd = some fd →
        env.connectOk = true → env.sendLoginOk = true →
        env.loginReply = none →
        connectToGroundControl env = ⟨-1, SOCK_FD_INVAL, true, false⟩) ∧
    (∀ env : ConnectEnv, (connectToGroundControl env).retval = 0 →
        env.loginReply = some (ModuleMessageCode.loginAck.toWire, DRONE_ID) ∧
        (connectToGroundControl env).keepaliveRequested = true ∧
        (connectToGroundControl env).socketClosed = false) ∧
    loginRecvTimeoutSec = 2 := by
  refine ⟨?_, ?_, ?_, rfl⟩
  · intro env fd code id ha hs hc hsl hr hmis
    obtain ⟨a, s, c, sl, r⟩ := env
    cases ha; cases hs; cases hc; cases hsl; cases hr
    simp only [connectToGroundControl, Bool.not_true, if_false]
    simp [hmis]
  · intro env fd ha hs hc hsl hr
    obtain ⟨a, s, c, sl, r⟩ := env
    cases ha; cases hs; cases hc; cases hsl; cases hr
    simp [connectToGroundControl]
  · intro env h0
    obtain ⟨a, s, c, sl, r⟩ := env
    cases a with
    | false => simp [connectToGroundControl] at h0
    | true =>
        cases s with
        | none => simp [connectToGroundControl] at h0
        | some fd =>
            cases c with
            | false => simp [connectToGroundControl] at h0
            | true =>
                cases sl with
                | false => simp [connectToGroundControl] at h0
                | true =>
                    cases r with
                    | none => simp [connectToGroundControl] at h0
                    | some p =>
                        obtain ⟨code, id⟩ := p
                        by_cases hm :
                            code ≠ ModuleMessageCode.loginAck.toWire ∨
                              id ≠ DRONE_ID
                        · simp [connectToGroundControl, hm] at h0
                        · push_neg at hm
                          obtain ⟨h1, h2⟩ := hm
                          subst h1
                          subst h2
                          exact ⟨rfl, by simp [connectToGroundControl],
                                 by simp [connectToGroundControl]⟩

/-- Witness for C8: with everything up to the login exchange succeeding and
a `{LOGIN_NACK, 0}` reply, the attempt fails with the socket closed and the
descriptor invalid. -/
theorem connectLoginValidation_witness :
    connectToGroundControl ⟨true, some 5, true, true, some (8, 0)⟩ =
      ⟨-1, SOCK_FD_INVAL, true, false⟩ :=
  connectLoginValidation.1 ⟨true, some 5, true, true, some (8, 0)⟩ 5 8 0
    rfl rfl rfl rfl rfl (Or.inl (by decide))

/-- C9: a non-blocking push that fails (trylock failure `-2` or full `-3`)
and a non-blocking pop that fails (`-2` or empty `-3`) leave the queue
completely unchanged — same `front`, `back` and buffer — and a failed pop
hands no message to the caller (so on a failed push the caller still owns
the message, which was never stored). -/
theorem queueFailedOpsLeaveUnchanged (q : ModuleMessageQueue)
    (m : ModuleMessage) (b : Bool) :
    (((insertModuleMessage q m b).1 = -2 ∨ (insertModuleMessage q m b).1 = -3) →
       (insertModuleMessage q m b).2 = q) ∧
    (((removeModuleMessage q b).1 = -2 ∨ (removeModuleMessage q b).1 = -3) →
       (removeModuleMessage q b).2.2 = q ∧ (removeModuleMessage q b).2.1 = none) := by
  constructor
  · intro hfail
    by_cases hb : b
    · by_cases hocc : (q.messages[q.front]?.getD none).isSome
      · simp [insertModuleMessage, hb, hocc]
      · simp [insertModuleMessage, hb, hocc] at hfail
    · simp [insertModuleMessage, hb]
  · intro hfail
    by_cases hb : b
    · cases hslot : q.messages[q.back]?.getD none with
      | none => simp [removeModuleMessage, hb, hslot]
      | some m' => simp [removeModuleMessage, hb, hslot] at hfail
    · simp [removeModuleMessage, hb]

/-- Witness for C9: a failed push on a full one-slot queue and a failed pop
on an empty one-slot queue leave each queue unchanged. -/
theorem queueFailedOpsLeaveUnchanged_witness :
    (insertModuleMessage ⟨1, 0, 0, [some ⟨.stream, .streamStart, 0⟩]⟩
        ⟨.stream, .streamStop, 0⟩ true).2
      = ⟨1, 0, 0, [some ⟨.stream, .streamStart, 0⟩]⟩ ∧
    (removeModuleMessage ⟨1, 0, 0, [none]⟩ true).2.2 = ⟨1, 0, 0, [none]⟩ :=
  ⟨(queueFailedOpsLeaveUnchanged ⟨1, 0, 0, [some ⟨.stream, .streamStart, 0⟩]⟩
      ⟨.stream, .streamStop, 0⟩ true).1 (Or.inr (by decide)),
   ((queueFailedOpsLeaveUnchanged ⟨1, 0, 0, [none]⟩
      ⟨.stream, .streamStop, 0⟩ true).2 (Or.inr (by decide))).1⟩

/-- C4: a freshly created queue of any valid capacity `2^n` accepts exactly
`capacity` successful non-blocking pushes, after which the next non-blocking
push returns Full (`-3`); popping all `capacity` messages succeeds (returning
them in order), after which the next non-blocking pop returns Empty (`-3`).
Usable capacity is thus the declared capacity, not `capacity - 1`. -/
theorem queueCapacityExact (n : Nat) (msgs : List ModuleMessage)
    (q0 : ModuleMessageQueue) (m' : ModuleMessage)
    (hlen : msgs.length = 2 ^ n)
    (hinit : initModuleMessageQueue (2 ^ n) = some q0) :
    ∃ qf, pushAll q0 msgs = some qf ∧
      (insertModuleMessage qf m' true).1 = -3 ∧
      ∃ qe, popAll qf (2 ^ n) = some (msgs, qe) ∧
        (removeModuleMessage qe true).1 = -3 := by
  obtain ⟨hsz0, hrep0⟩ := initModuleMessageQueue_repr hinit
  obtain ⟨qf, hpush, hrepf, hszf⟩ :=
    pushAll_repr msgs q0 [] hrep0 (by simp [hsz0, hlen])
  rw [List.nil_append] at hrepf
  have hfull : msgs.length = qf.size := by rw [hszf, hsz0, hlen]
  refine ⟨qf, hpush, ?_, ?_⟩
  · rw [insertModuleMessage_full hrepf hfull m']
  · obtain ⟨qe, hpop, hrepe, _⟩ := popAll_repr msgs qf hrepf
    refine ⟨qe, ?_, ?_⟩
    · rw [← hlen]
      exact hpop
    · rw [removeModuleMessage_empty hrepe]

/-- Witness for C4 at capacity `2^1 = 2`: both pushes succeed, a third push
returns Full, draining both messages returns them in order, and a further
pop returns Empty. -/
theorem queueCapacityExact_witness :
    ∃ qf, pushAll ⟨2, 0, 0, [none, none]⟩
        [⟨.stream, .streamStart, 0⟩, ⟨.stream, .streamStop, 0⟩] = some qf ∧
      (insertModuleMessage qf ⟨.stream, .streamReq, 5000⟩ true).1 = -3 ∧
      ∃ qe, popAll qf (2 ^ 1) =
          some ([⟨.stream, .streamStart, 0⟩, ⟨.stream, .streamStop, 0⟩], qe) ∧
        (removeModuleMessage qe true).1 = -3 :=
  queueCapacityExact 1
    [⟨.stream, .streamStart, 0⟩, ⟨.stream, .streamStop, 0⟩]
    ⟨2, 0, 0, [none, none]⟩ ⟨.stream, .streamReq, 5000⟩
    (by decide) (by decide)

/-- C5: queue creation fails exactly for a capacity that is zero or not a
power of two — in particular for capacities 0, 3, 5, 6 and 100 — and
succeeds (given the modelled allocations succeed) for capacities 1, 2, 4,
16 and 1024, allocating no buffer in the failure case (`none` carries no
queue). -/
theorem initModuleMessageQueue_validatesCapacity :
    (∀ size, initModuleMessageQueue size = none ↔
        (size = 0 ∨ ∀ k, size ≠ 2 ^ k)) ∧
    initModuleMessageQueue 0 = none ∧
    initModuleMessageQueue 3 = none ∧
    initModuleMessageQueue 5 = none ∧
    initModuleMessageQueue 6 = none ∧
    initModuleMessageQueue 100 = none ∧
    (initModuleMessageQueue 1).isSome = true ∧
    (initModuleMessageQueue 2).isSome = true ∧
    (initModuleMessageQueue 4).isSome = true ∧
    (initModuleMessageQueue 16).isSome = true ∧
    (initModuleMessageQueue 1024).isSome = true := by
  refine ⟨?_, by decide, by decide, by decide, by decide, by decide,
          by decide, by decide, by decide, by decide, by decide⟩
  intro size
  constructor
  · intro hnone
    by_cases h0 : size = 0
    · exact Or.inl h0
    · refine Or.inr fun k hk => ?_
      rw [initModuleMessageQueue,
          if_pos ⟨h0, by rw [hk]; exact pow_two_and_pred k⟩] at hnone
      exact Option.noConfusion hnone
  · intro h
    rw [initModuleMessageQueue, if_neg]
    intro hcond
    obtain ⟨hne, hand⟩ := hcond
    obtain ⟨k, hk⟩ := and_pred_eq_zero_isPow2 size hne hand
    rcases h with h0 | hnp
    · exact hne h0
    · exact hnp k hk

/-- C6: the concrete queue is observationally equal to the spec's reference
FIFO: any sequence of non-blocking operations run from a freshly created
queue produces exactly the return values and popped messages of the
reference bounded FIFO run from the empty list — in particular the pops
return the pushed messages in the order they were pushed. -/
theorem queueObservationallyFifo (size : Nat) (q : ModuleMessageQueue)
    (ops : List QueueOp) (hinit : initModuleMessageQueue size = some q) :
    runQueue q ops = runFifo size [] ops := by
  obtain ⟨hsz, hrep⟩ := initModuleMessageQueue_repr hinit
  have hrun : ∀ (ops : List QueueOp) (q : ModuleMessageQueue)
      (l : List ModuleMessage), QueueRepr q l →
      runQueue q ops = runFifo q.size l ops := by
    intro ops
    induction ops with
    | nil => intro q l h; rfl
    | cons op ops ih =>
        intro q l h
        cases op with
        | push m =>
            rcases Nat.lt_or_ge l.length q.size with hlt | hge
            · obtain ⟨h0, hrep'⟩ := insertModuleMessage_ok h hlt m
              have hsz' := insert_snd_size q m true
              simp only [runQueue, runFifo, if_neg (Nat.ne_of_lt hlt)]
              rw [h0, ih _ _ hrep', hsz']
            · have hfull : l.length = q.size := Nat.le_antisymm h.lenLe hge
              have hstep := insertModuleMessage_full h hfull m
              simp only [runQueue, runFifo, if_pos hfull, hstep]
              rw [ih q l h]
        | pop =>
            cases l with
            | nil =>
                have hstep := removeModuleMessage_empty h
                simp only [runQueue, runFifo, hstep]
                rw [ih q [] h]
            | cons m t =>
                obtain ⟨hstep, hrep'⟩ := removeModuleMessage_ok h
                simp only [runQueue, runFifo, hstep]
                rw [ih _ _ hrep']
  rw [hrun ops q [] hrep, hsz]

/-- Witness for C6: on a capacity-2 queue, two pushes, three pops (the last
hitting Empty) and one more push observe exactly the reference FIFO. -/
theorem queueObservationallyFifo_witness :
    runQueue ⟨2, 0, 0, [none, none]⟩
        [.push ⟨.stream, .streamStart, 1⟩, .push ⟨.stream, .streamStop, 2⟩,
         .pop, .pop, .pop, .push ⟨.stream, .streamReq, 3⟩]
      = runFifo 2 []
        [.push ⟨.stream, .streamStart, 1⟩, .push ⟨.stream, .streamStop, 2⟩,
         .pop, .pop, .pop, .push ⟨.stream, .streamReq, 3⟩] :=
  queueObservationallyFifo 2 ⟨2, 0, 0, [none, none]⟩
    [.push ⟨.stream, .streamStart, 1⟩, .push ⟨.stream, .streamStop, 2⟩,
     .pop, .pop, .pop, .push ⟨.stream, .streamReq, 3⟩]
    (by decide)

/-- C10: the index invariant `front < size ∧ back < size` holds after
initialisation and is preserved by every push, pop and drain step on a
power-of-two-sized queue: the mask advance `(i + 1) &&& (size - 1)` never
leaves the buffer, so the slot accesses at `front` and `back` are in
bounds. -/
theorem queueIndexInvariantPreserved :
    (∀ (size : Nat) (q : ModuleMessageQueue),
        initModuleMessageQueue size = some q → queueIndicesInBounds q) ∧
    (∀ q : ModuleMessageQueue, (∃ k, q.size = 2 ^ k) →
        queueIndicesInBounds q →
        (∀ (m : ModuleMessage) (b : Bool),
            queueIndicesInBounds (insertModuleMessage q m b).2) ∧
        (∀ b : Bool, queueIndicesInBounds (removeModuleMessage q b).2.2) ∧
        queueIndicesInBounds (drainQueue q)) := by
  constructor
  · intro size q hinit
    unfold initModuleMessageQueue at hinit
    split at hinit
    · rename_i hcond
      injection hinit with hinit
      subst hinit
      exact ⟨Nat.pos_of_ne_zero hcond.1, Nat.pos_of_ne_zero hcond.1⟩
    · exact Option.noConfusion hinit
  · intro q hpow hwf
    have hpos : 0 < q.size := by
      obtain ⟨k, hk⟩ := hpow
      rw [hk]
      exact Nat.two_pow_pos k
    have hmask : ∀ x : Nat, x &&& (q.size - 1) < q.size :=
      fun x => Nat.lt_of_le_of_lt Nat.and_le_right (Nat.sub_lt hpos (by decide))
    refine ⟨?_, ?_, ?_⟩
    · intro m b
      unfold insertModuleMessage
      split
      · exact hwf
      · split
        · exact hwf
        · exact ⟨hmask _, hwf.2⟩
    · intro b
      unfold removeModuleMessage
      split
      · exact hwf
      · split
        · exact hwf
        · exact ⟨hwf.1, hmask _⟩
    · exact drainQueue_bounds (occupiedCount q.messages) q rfl hpos hwf

/-- Witness for C10: a freshly initialised capacity-2 queue satisfies the
invariant, and it is preserved by a push, by a pop and by draining a
partially filled queue. -/
theorem queueIndexInvariantPreserved_witness :
    queueIndicesInBounds (⟨2, 0, 0, [none, none]⟩ : ModuleMessageQueue) ∧
    queueIndicesInBounds
      (insertModuleMessage ⟨2, 0, 0, [none, none]⟩
        ⟨.stream, .streamStart, 0⟩ true).2 ∧
    queueIndicesInBounds
      (removeModuleMessage ⟨2, 1, 0, [some ⟨.stream, .streamStart, 0⟩, none]⟩
        true).2.2 ∧
    queueIndicesInBounds
      (drainQueue ⟨2, 1, 0, [some ⟨.stream, .streamStart, 0⟩, none]⟩) :=
  ⟨queueIndexInvariantPreserved.1 2 ⟨2, 0, 0, [none, none]⟩ (by decide),
   (queueIndexInvariantPreserved.2 ⟨2, 0, 0, [none, none]⟩ ⟨1, rfl⟩
      ⟨by decide, by decide⟩).1 ⟨.stream, .streamStart, 0⟩ true,
   ((queueIndexInvariantPreserved.2
      ⟨2, 1, 0, [some ⟨.stream, .streamStart, 0⟩, none]⟩ ⟨1, rfl⟩
      ⟨by decide, by decide⟩).2).1 true,
   ((queueIndexInvariantPreserved.2
      ⟨2, 1, 0, [some ⟨.stream, .streamStart, 0⟩, none]⟩ ⟨1, rfl⟩
      ⟨by decide, by decide⟩).2).2⟩

end DroneStreamer
